import Mathlib

/-!
Shallow embedding of the manifest-standardization engine of
`apps/inventory` (files `formula_engine.py` and `views.py`).

Python strings are modelled as Lean `String` (the relevant string
methods are reproduced character-by-character for the ASCII range the
code and the claims exercise).  Fallible Python code is modelled with
`Except PyError`, where `PyError` distinguishes the module's own
`FormulaError` from the builtin exceptions (`ValueError` from `int()`,
`AttributeError` from attribute access) that the source can leak.
-/

/-- The exceptions the embedded code can raise.  `formulaError` is the
`FormulaError` class of `formula_engine.py`; `valueError` models the
builtin `ValueError` raised by `int()`; `attributeError` models the
builtin `AttributeError` raised by attribute access on a value without
that attribute. -/
inductive PyError where
  | formulaError (msg : String)
  | valueError (msg : String)
  | attributeError (msg : String)
  | otherError (msg : String)
deriving DecidableEq, Repr

/-- Python `str.isspace` characters in the ASCII range
(`' '`, `'\t'`, `'\n'`, `'\r'`, `'\x0b'`, `'\x0c'`); this is also what
the regex class `\s` matches on ASCII input. -/
def pyIsSpace (c : Char) : Bool :=
  c = ' ' || c = '\t' || c = '\n' || c = '\r' || c = '\x0b' || c = '\x0c'

/-- Python `str.strip()` on a character list. -/
def pyStripList (cs : List Char) : List Char :=
  ((cs.dropWhile pyIsSpace).reverse.dropWhile pyIsSpace).reverse

/-- Python `str.strip()`. -/
def pyStrip (s : String) : String :=
  String.mk (pyStripList s.data)

/-- Python `str.lower()` (ASCII). -/
def pyLower (s : String) : String :=
  String.mk (s.data.map Char.toLower)

/-- Python `str.upper()` (ASCII). -/
def pyUpper (s : String) : String :=
  String.mk (s.data.map Char.toUpper)

/-- One step of Python `str.title()`: a letter is uppercased when the
previous character is not a letter, lowercased otherwise (ASCII cased
characters are exactly the letters). -/
def pyTitleAux : Bool → List Char → List Char
  | _, [] => []
  | prevAlpha, c :: rest =>
    if c.isAlpha then
      (if prevAlpha then c.toLower else c.toUpper) :: pyTitleAux true rest
    else
      c :: pyTitleAux false rest

/-- Python `str.title()` (ASCII). -/
def pyTitle (s : String) : String :=
  String.mk (pyTitleAux false s.data)

/-- Auxiliary scan for Python `str.replace` with a non-empty needle:
left-to-right, non-overlapping.  The fuel argument (`length + 1` at
the call site) only bounds the recursion structurally; every step
consumes at least one character because the needle is non-empty, so
the fuel-exhaustion branch is unreachable. -/
def pyReplaceAux (needle repl : List Char) : Nat → List Char → List Char
  | _, [] => []
  | 0, l => l
  | fuel + 1, c :: rest =>
    if needle.isPrefixOf (c :: rest) then
      repl ++ pyReplaceAux needle repl fuel ((c :: rest).drop needle.length)
    else
      c :: pyReplaceAux needle repl fuel rest

/-- Python `str.replace(needle, repl)`: with an empty needle the
replacement is inserted at every character boundary (so that
`"ab".replace("", "x") = "xaxbx"`), otherwise a left-to-right
non-overlapping scan. -/
def pyReplace (s needle repl : String) : String :=
  if needle = "" then
    repl ++ String.mk (s.data.flatMap (fun c => c :: repl.data))
  else
    String.mk (pyReplaceAux needle.data repl.data (s.data.length + 1) s.data)

/-- Continuation of a digit run accepted by Python `int()`: digits
with single underscores allowed between digits. -/
def pyIntDigitsTail : List Char → Bool
  | [] => true
  | '_' :: rest =>
    match rest with
    | [] => false
    | d :: rest' => d.isDigit && pyIntDigitsTail rest'
  | c :: rest => c.isDigit && pyIntDigitsTail rest

/-- Digit-and-underscore grouping accepted by Python `int()`: one or
more digit groups separated by single underscores. -/
def pyIntDigitsOk : List Char → Bool
  | [] => false
  | c :: rest => c.isDigit && pyIntDigitsTail rest

/-- Numeric value of a digit/underscore run (underscores skipped). -/
def pyDigitsVal (cs : List Char) : Nat :=
  cs.foldl (fun acc c => if c.isDigit then acc * 10 + (c.toNat - '0'.toNat) else acc) 0

/-- Python `int(s)` for a string: strips whitespace, accepts an
optional single sign followed by digits (with single underscores
allowed between digits); returns `none` where Python raises
`ValueError`. -/
def pyInt (s : String) : Option Int :=
  let cs := pyStripList s.data
  match cs with
  | '+' :: rest => if pyIntDigitsOk rest then some (pyDigitsVal rest) else none
  | '-' :: rest => if pyIntDigitsOk rest then some (-(pyDigitsVal rest : Int)) else none
  | rest => if pyIntDigitsOk rest then some (pyDigitsVal rest) else none

/-- Python slicing `s[:n]` for an arbitrary integer `n` (negative `n`
counts from the end). -/
def pySliceTo (s : String) (n : Int) : String :=
  if 0 ≤ n then
    String.mk (s.data.take n.toNat)
  else
    String.mk (s.data.take (s.data.length - (-n).toNat))

/-- Python slicing `s[-n:]` for `n > 0` (the last `n` characters). -/
def pyLastN (s : String) (n : Int) : String :=
  String.mk (s.data.drop (s.data.length - n.toNat))

-- ── formula_engine.py: tokenizer ────────────────────────────────────────────

/-- Token kinds produced by `tokenize` (whitespace is skipped and never
emitted). -/
inductive TokKind where
  | STRING
  | COLREF
  | FUNC
  | NUMBER
  | LPAREN
  | RPAREN
  | COMMA
  | PLUS
deriving DecidableEq, Repr

/-- Printable kind name, as it appears in parser error messages. -/
def TokKind.name : TokKind → String
  | .STRING => "STRING"
  | .COLREF => "COLREF"
  | .FUNC => "FUNC"
  | .NUMBER => "NUMBER"
  | .LPAREN => "LPAREN"
  | .RPAREN => "RPAREN"
  | .COMMA => "COMMA"
  | .PLUS => "PLUS"

/-- A token: kind plus post-processed value, exactly as appended in
`tokenize`. -/
structure Token where
  kind : TokKind
  val : String
deriving DecidableEq, Repr

/-- The function names of the `FUNC` regex alternative, in source
order.  No name is a prefix of another, so at most one can match at a
given position. -/
def FUNC_NAMES : List String :=
  ["UPPER", "LOWER", "TITLE", "TRIM", "REPLACE", "CONCAT", "LEFT", "RIGHT"]

/-- Scan the body of a `STRING` token (regex `"(?:[^"\\]|\\.)*"`),
starting just after the opening quote.  Returns the raw (still
escaped) body together with the rest after the closing quote, or
`none` when the regex cannot match. -/
def scanStringBody : List Char → Option (List Char × List Char)
  | [] => none
  | '"' :: rest => some ([], rest)
  | '\\' :: d :: rest =>
    match scanStringBody rest with
    | some (body, rest') => some ('\\' :: d :: body, rest')
    | none => none
  | '\\' :: [] => none
  | c :: rest =>
    match scanStringBody rest with
    | some (body, rest') => some (c :: body, rest')
    | none => none

/-- String-escape post-processing applied by `tokenize` to a `STRING`
token body: `value.replace('\\"', '"').replace('\\\\', '\\')`. -/
def unescapeString (body : String) : String :=
  pyReplace (pyReplace body "\\\"" "\"") "\\\\" "\\"

/-- Try to match one regex alternative at the head of `cs`, in the
source's alternation order (STRING, COLREF, FUNC, NUMBER, LPAREN,
RPAREN, COMMA, PLUS, WS).  Returns the produced token (`none` inside
the pair means the WS alternative, which emits nothing) and the
remaining characters; `none` overall means no alternative matches
here, i.e. this character is part of an unmatched gap. -/
def tryMatchToken (cs : List Char) : Option (Option Token × List Char) :=
  match cs with
  | [] => none
  | c :: rest =>
    if c = '"' then
      match scanStringBody rest with
      | some (body, rest') =>
        some (some ⟨.STRING, unescapeString (String.mk body)⟩, rest')
      | none => none
    else if c = '[' then
      let inner := rest.takeWhile (fun d => d ≠ ']')
      match rest.drop inner.length with
      | ']' :: rest' =>
        if inner.isEmpty then none
        else some (some ⟨.COLREF, String.mk inner⟩, rest')
      | _ => none
    else if c = '(' then some (some ⟨.LPAREN, "("⟩, rest)
    else if c = ')' then some (some ⟨.RPAREN, ")"⟩, rest)
    else if c = ',' then some (some ⟨.COMMA, ","⟩, rest)
    else if c = '+' then some (some ⟨.PLUS, "+"⟩, rest)
    else if pyIsSpace c then
      some (none, (c :: rest).dropWhile pyIsSpace)
    else if c.isDigit then
      let digits := (c :: rest).takeWhile Char.isDigit
      some (some ⟨.NUMBER, String.mk digits⟩, (c :: rest).drop digits.length)
    else
      match FUNC_NAMES.find? (fun name => name.data.isPrefixOf (c :: rest)) with
      | some name =>
        let after := ((c :: rest).drop name.length).dropWhile pyIsSpace
        match after with
        | '(' :: _ => some (some ⟨.FUNC, name⟩, after)
        | _ => none
      | none => none

/-- Driver loop of `tokenize`: mirrors `re.finditer` over the token
regex, accumulating unmatched characters in `gap` and raising
`FormulaError` when a non-whitespace gap is found before a match or at
the end of the input.  `fuel` only bounds the recursion; it starts at
`length + 1` and every step consumes at least one character, so the
fuel-exhaustion branch is unreachable. -/
def tokenizeAux : Nat → List Char → List Char → Except PyError (List Token)
  | _ + 1, [], gap =>
    if pyStrip (String.mk gap) = "" then .ok []
    else .error (.formulaError ("Unexpected characters at end: '" ++ pyStrip (String.mk gap) ++ "'"))
  | fuel + 1, c :: cs, gap =>
    match tryMatchToken (c :: cs) with
    | none => tokenizeAux fuel cs (gap ++ [c])
    | some (tok?, rest) =>
      if pyStrip (String.mk gap) = "" then
        match tok? with
        | none => tokenizeAux fuel rest []
        | some tok =>
          match tokenizeAux fuel rest [] with
          | .ok toks => .ok (tok :: toks)
          | .error e => .error e
      else
        .error (.formulaError ("Unexpected characters: '" ++ pyStrip (String.mk gap) ++ "'"))
  | 0, _, gap =>
    if pyStrip (String.mk gap) = "" then .ok []
    else .error (.formulaError "tokenizer fuel exhausted (unreachable)")

/-- `tokenize(formula)` of `formula_engine.py`. -/
def tokenize (formula : String) : Except PyError (List Token) :=
  tokenizeAux (formula.data.length + 1) formula.data []

-- ── formula_engine.py: AST and parser ───────────────────────────────────────

/-- The AST node classes of `formula_engine.py`. -/
inductive ASTNode where
  | stringLit (value : String)
  | numberLit (value : Nat)
  | columnRef (name : String)
  | funcCall (name : String) (args : List ASTNode)
  | concatOp (left right : ASTNode)
deriving Repr

/-- The integer value of a `NUMBER` token (`int(tok)` on a digit run). -/
def numberValue (s : String) : Nat :=
  pyDigitsVal s.data

mutual

/-- `Parser.parse_concat`: a primary followed by any number of
`+ primary` continuations. -/
def parseConcatFn : Nat → List Token → Except PyError (ASTNode × List Token)
  | 0, _ => .error (.otherError "parser fuel exhausted (unreachable)")
  | fuel + 1, toks =>
    match parsePrimaryFn fuel toks with
    | .error e => .error e
    | .ok (left, rest) => parseConcatLoop fuel left rest

/-- The `while PLUS` loop inside `parse_concat`. -/
def parseConcatLoop : Nat → ASTNode → List Token → Except PyError (ASTNode × List Token)
  | 0, _, _ => .error (.otherError "parser fuel exhausted (unreachable)")
  | fuel + 1, left, toks =>
    match toks with
    | ⟨.PLUS, _⟩ :: rest =>
      match parsePrimaryFn fuel rest with
      | .error e => .error e
      | .ok (right, rest') => parseConcatLoop fuel (.concatOp left right) rest'
    | _ => .ok (left, toks)

/-- `Parser.parse_primary`. -/
def parsePrimaryFn : Nat → List Token → Except PyError (ASTNode × List Token)
  | 0, _ => .error (.otherError "parser fuel exhausted (unreachable)")
  | fuel + 1, toks =>
    match toks with
    | [] => .error (.formulaError "Unexpected end of expression")
    | ⟨.STRING, v⟩ :: rest => .ok (.stringLit v, rest)
    | ⟨.NUMBER, v⟩ :: rest => .ok (.numberLit (numberValue v), rest)
    | ⟨.COLREF, v⟩ :: rest => .ok (.columnRef v, rest)
    | ⟨.FUNC, name⟩ :: rest =>
      match rest with
      | ⟨.LPAREN, _⟩ :: rest2 =>
        (match rest2 with
         | ⟨.RPAREN, _⟩ :: rest3 => .ok (.funcCall name [], rest3)
         | _ =>
           match parseConcatFn fuel rest2 with
           | .error e => .error e
           | .ok (arg, rest3) =>
             match parseArgsLoop fuel [arg] rest3 with
             | .error e => .error e
             | .ok (args, rest4) =>
               match rest4 with
               | ⟨.RPAREN, _⟩ :: rest5 => .ok (.funcCall name args, rest5)
               | ⟨k, v⟩ :: _ =>
                 .error (.formulaError ("Expected RPAREN, got " ++ k.name ++ " ('" ++ v ++ "')"))
               | [] => .error (.formulaError "Unexpected end of expression"))
      | ⟨k, v⟩ :: _ =>
        .error (.formulaError ("Expected LPAREN, got " ++ k.name ++ " ('" ++ v ++ "')"))
      | [] => .error (.formulaError "Unexpected end of expression")
    | ⟨.LPAREN, _⟩ :: rest =>
      match parseConcatFn fuel rest with
      | .error e => .error e
      | .ok (node, rest2) =>
        match rest2 with
        | ⟨.RPAREN, _⟩ :: rest3 => .ok (node, rest3)
        | ⟨k, v⟩ :: _ =>
          .error (.formulaError ("Expected RPAREN, got " ++ k.name ++ " ('" ++ v ++ "')"))
        | [] => .error (.formulaError "Unexpected end of expression")
    | ⟨k, v⟩ :: _ =>
      .error (.formulaError ("Unexpected token: " ++ k.name ++ " ('" ++ v ++ "')"))

/-- The `while COMMA` argument loop of the `FUNC` case in
`parse_primary`. -/
def parseArgsLoop : Nat → List ASTNode → List Token → Except PyError (List ASTNode × List Token)
  | 0, _, _ => .error (.otherError "parser fuel exhausted (unreachable)")
  | fuel + 1, args, toks =>
    match toks with
    | ⟨.COMMA, _⟩ :: rest =>
      match parseConcatFn fuel rest with
      | .error e => .error e
      | .ok (arg, rest') => parseArgsLoop fuel (args ++ [arg]) rest'
    | _ => .ok (args, toks)

end

/-- `Parser(tokens).parse()`: parse a full expression and require all
tokens consumed.  The fuel `3 * length + 8` exceeds the length of any
call chain of the recursive-descent parser (each descent or loop step
consumes at least one token), so the fuel branch is unreachable. -/
def parseFormula (toks : List Token) : Except PyError ASTNode :=
  match parseConcatFn (3 * toks.length + 8) toks with
  | .error e => .error e
  | .ok (node, rest) =>
    match rest with
    | [] => .ok node
    | ⟨k, v⟩ :: _ =>
      .error (.formulaError ("Unexpected token: " ++ k.name ++ " ('" ++ v ++ "')"))

-- ── formula_engine.py: evaluator ────────────────────────────────────────────

/-- `FUNC_ARG_COUNTS` (min, max) with `none` for unbounded max; the
`.get(name, (0, None))` default of the source is the fallback case. -/
def FUNC_ARG_COUNTS (name : String) : Nat × Option Nat :=
  if name = "UPPER" then (1, some 1)
  else if name = "LOWER" then (1, some 1)
  else if name = "TITLE" then (1, some 1)
  else if name = "TRIM" then (1, some 1)
  else if name = "REPLACE" then (3, some 3)
  else if name = "CONCAT" then (1, none)
  else if name = "LEFT" then (2, some 2)
  else if name = "RIGHT" then (2, some 2)
  else (0, none)

/-- The `FUNCTIONS` table applied to already-evaluated string
arguments.  `LEFT`/`RIGHT` call Python `int()` on their second
argument, which raises `ValueError` on a non-numeric string — this is
modelled by the `.valueError` branch. -/
def applyFunction (name : String) (args : List String) : Except PyError String :=
  if name = "UPPER" then .ok (pyUpper (args.getD 0 ""))
  else if name = "LOWER" then .ok (pyLower (args.getD 0 ""))
  else if name = "TITLE" then .ok (pyTitle (args.getD 0 ""))
  else if name = "TRIM" then .ok (pyStrip (args.getD 0 ""))
  else if name = "REPLACE" then .ok (pyReplace (args.getD 0 "") (args.getD 1 "") (args.getD 2 ""))
  else if name = "CONCAT" then .ok (String.join args)
  else if name = "LEFT" then
    match pyInt (args.getD 1 "") with
    | some n => .ok (pySliceTo (args.getD 0 "") n)
    | none => .error (.valueError ("invalid literal for int() with base 10: '" ++ args.getD 1 "" ++ "'"))
  else if name = "RIGHT" then
    match pyInt (args.getD 1 "") with
    | some n => if 0 < n then .ok (pyLastN (args.getD 0 "") n) else .ok ""
    | none => .error (.valueError ("invalid literal for int() with base 10: '" ++ args.getD 1 "" ++ "'"))
  else .error (.otherError ("KeyError: " ++ name))

/-- A row is a Python `dict[str, str]`, modelled as an association
list with distinct keys; `rowGet` is `row.get(name, '')`. -/
def rowGet (row : List (String × String)) (name : String) : String :=
  match row.find? (fun p => p.1 = name) with
  | some p => p.2
  | none => ""

mutual

/-- `evaluate_ast(node, row)`.  For a function call the arity is
checked first (raising `FormulaError`), then the arguments are
evaluated left to right, then the `FUNCTIONS` entry is applied. -/
def evaluate_ast : ASTNode → List (String × String) → Except PyError String
  | .stringLit v, _ => .ok v
  | .numberLit n, _ => .ok (toString n)
  | .columnRef name, row => .ok (rowGet row name)
  | .concatOp l r, row =>
    match evaluate_ast l row with
    | .error e => .error e
    | .ok lv =>
      match evaluate_ast r row with
      | .error e => .error e
      | .ok rv => .ok (lv ++ rv)
  | .funcCall name args, row =>
    let counts := FUNC_ARG_COUNTS name
    if args.length < counts.1 then
      .error (.formulaError (name ++ "() requires at least " ++ toString counts.1
        ++ " argument(s), got " ++ toString args.length))
    else
      match counts.2 with
      | some maxA =>
        if maxA < args.length then
          .error (.formulaError (name ++ "() accepts at most " ++ toString maxA
            ++ " argument(s), got " ++ toString args.length))
        else
          match evalArgs args row with
          | .error e => .error e
          | .ok vals => applyFunction name vals
      | none =>
        match evalArgs args row with
        | .error e => .error e
        | .ok vals => applyFunction name vals

/-- Left-to-right evaluation of a function call's argument list; the
first exception propagates. -/
def evalArgs : List ASTNode → List (String × String) → Except PyError (List String)
  | [], _ => .ok []
  | a :: rest, row =>
    match evaluate_ast a row with
    | .error e => .error e
    | .ok v =>
      match evalArgs rest row with
      | .error e => .error e
      | .ok vs => .ok (v :: vs)

end

/-- `evaluate_formula(formula, row)` of `formula_engine.py`. -/
def evaluate_formula (formula : String) (row : List (String × String)) : Except PyError String :=
  let f := pyStrip formula
  if f = "" then .ok ""
  else
    match tokenize f with
    | .error e => .error e
    | .ok toks =>
      if toks = [] then .ok ""
      else
        match parseFormula toks with
        | .error e => .error e
        | .ok ast => evaluate_ast ast row

/-- `validate_formula(formula)` of `formula_engine.py`: tokenizes and
parses only (it never evaluates, so it performs no arity checks);
returns `none` when valid, otherwise the `FormulaError` message. -/
def validate_formula (formula : String) : Option String :=
  let f := pyStrip formula
  if f = "" then none
  else
    match tokenize f with
    | .error (.formulaError msg) => some msg
    | .error _ => none
    | .ok toks =>
      if toks = [] then none
      else
        match parseFormula toks with
        | .error (.formulaError msg) => some msg
        | .error _ => none
        | .ok _ => none

-- ── views.py: manifest mapping data model ───────────────────────────────────

/-- `MANIFEST_TARGET_FIELDS` of `views.py` (the 11 target fields, in
order). -/
def MANIFEST_TARGET_FIELDS : List String :=
  ["quantity", "description", "title", "brand", "model", "category",
   "condition", "retail_value", "upc", "vendor_item_number", "notes"]

/-- `MANIFEST_SOURCE_ALIASES.get(target, [])` of `views.py`: the fixed
alias table (targets absent from the dict — `title` and `condition` —
get the empty list). -/
def MANIFEST_SOURCE_ALIASES (target : String) : List String :=
  if target = "quantity" then ["quantity", "qty", "units", "count", "qnty"]
  else if target = "description" then ["description", "item description", "title", "product", "item"]
  else if target = "brand" then ["brand", "manufacturer"]
  else if target = "model" then ["model", "model_number", "model number"]
  else if target = "category" then ["category", "department"]
  else if target = "retail_value" then ["retail_value", "retail value", "unit_cost", "unit cost", "cost", "price"]
  else if target = "upc" then ["upc", "upc/ean", "barcode"]
  else if target = "vendor_item_number" then
    ["vendor_item_number", "vendor item number", "item #", "item number", "tcin",
     "walmart item id", "sku"]
  else if target = "notes" then ["notes", "comment"]
  else []

/-- A transform specification as it can appear in a JSON
`transforms`/`functions` array: a string, a dict (modelled by its
string-valued entries), Python `None`, or a non-string non-dict value
such as a JSON number (constructor `intVal`). -/
inductive PyTransform where
  | str (s : String)
  | dict (entries : List (String × String))
  | noneVal
  | intVal (n : Int)
deriving DecidableEq, Repr

/-- Python truthiness of a transform value: `None`, `''`, `{}` and `0`
are falsy. -/
def PyTransform.truthy : PyTransform → Bool
  | .str s => s ≠ ""
  | .dict d => d ≠ []
  | .noneVal => false
  | .intVal n => n ≠ 0

/-- `d.get(key)` on a dict with string values: `none` when the key is
absent. -/
def dictGet? : List (String × String) → String → Option String
  | [], _ => none
  | (k, v) :: rest, key => if k = key then some v else dictGet? rest key

/-- `d.get(key, default)`. -/
def dictGetD (d : List (String × String)) (key : String) (default : String) : String :=
  match dictGet? d key with
  | some v => v
  | none => default

/-- Python `a or b` on strings where absent keys yield `''`: the first
operand if non-empty, else the second. -/
def pyOrStr (a b : String) : String :=
  if a ≠ "" then a else b

/-- A mapping payload dict as accepted by `normalize_standard_mappings`
and `normalize_row`, modelled by the keys those functions read (an
absent key is `none`).  Non-dict list entries are skipped by the source
and are not modelled. -/
structure MappingPayload where
  target : Option String
  standard_column : Option String
  standardColumn : Option String
  formula : Option String
  source : Option String
  source_header : Option String
  sourceHeader : Option String
  transforms : Option (List PyTransform)
  functions : Option (List PyTransform)
  transform : Option String
deriving DecidableEq, Repr

/-- The all-absent payload (Python `{}`). -/
def emptyPayload : MappingPayload :=
  ⟨none, none, none, none, none, none, none, none, none, none⟩

/-- A canonical transform as emitted by `normalize_standard_mappings`:
`{'type': t}` with `from`/`to` keys present exactly when the source
added them (only possible for `type = 'replace'`). -/
structure CanonTransform where
  type : String
  fromVal : Option String
  toVal : Option String
deriving DecidableEq, Repr

/-- A canonical column mapping as emitted by
`normalize_standard_mappings` / `default_column_mappings`:
`{target, formula}` or `{target, source, transforms}`. -/
inductive ColumnMapping where
  | formulaMapping (target formula : String)
  | standard (target source : String) (transforms : List CanonTransform)
deriving DecidableEq, Repr

/-- The inner alias loop of `default_column_mappings`: for each alias
in order, bind the first header whose stripped lowered form equals the
alias, and stop at the first alias with a match. -/
def findAliasSource : List String → List (String × String) → String
  | [], _ => ""
  | alias_ :: rest, normalizedHeaders =>
    match normalizedHeaders.find? (fun p => p.2 = alias_) with
    | some p => p.1
    | none => findAliasSource rest normalizedHeaders

/-- `default_column_mappings(headers)` of `views.py`. -/
def default_column_mappings (headers : List String) : List ColumnMapping :=
  let normalizedHeaders := headers.map (fun h => (h, pyLower (pyStrip h)))
  MANIFEST_TARGET_FIELDS.map (fun target =>
    .standard target (findAliasSource (MANIFEST_SOURCE_ALIASES target) normalizedHeaders) [])

-- ── views.py: normalize_standard_mappings ───────────────────────────────────

/-- Target resolution in `normalize_standard_mappings`:
`mapping.get('target') or mapping.get('standard_column') or
mapping.get('standardColumn')` (Python `or` keeps the first truthy
value; `None` and `''` both fail the later membership test, so they
are collapsed to `""`). -/
def resolveTarget (m : MappingPayload) : String :=
  pyOrStr (m.target.getD "") (pyOrStr (m.standard_column.getD "") (m.standardColumn.getD ""))

/-- Source resolution: `mapping.get('source') or
mapping.get('source_header') or mapping.get('sourceHeader')` followed
by `str(source or '')`. -/
def resolveSource (m : MappingPayload) : String :=
  pyOrStr (m.source.getD "") (pyOrStr (m.source_header.getD "") (m.sourceHeader.getD ""))

/-- The per-transform body of the `for transform in raw_transforms`
loop: `none` models `continue`. -/
def normalizeTransform : PyTransform → Option CanonTransform
  | .str s => some ⟨s, none, none⟩
  | .dict d =>
    let t := pyOrStr (dictGetD d "type" "") (dictGetD d "id" "")
    if t = "" then none
    else if t = "replace" then
      some ⟨t, some (match dictGet? d "from" with
                     | some v => v
                     | none => dictGetD d "value_from" ""),
               some (match dictGet? d "to" with
                     | some v => v
                     | none => dictGetD d "value_to" "")⟩
    else some ⟨t, none, none⟩
  | .noneVal => none
  | .intVal _ => none

/-- The body of the `for mapping in mappings` loop of
`normalize_standard_mappings`; `none` models `continue` (target not in
`MANIFEST_TARGET_FIELDS`). -/
def normalizeOne (m : MappingPayload) : Option ColumnMapping :=
  let target := resolveTarget m
  if MANIFEST_TARGET_FIELDS.contains target then
    let formula := match m.formula with
      | some f => if f ≠ "" then pyStrip f else ""
      | none => ""
    if formula ≠ "" then
      some (.formulaMapping target formula)
    else
      let rawTransforms : Option (List PyTransform) :=
        match m.transforms with
        | some ts => some ts
        | none =>
          match m.functions with
          | some fs => some fs
          | none =>
            match m.transform with
            | some t => if t ≠ "" then some [.dict [("type", t)]] else none
            | none => none
      some (.standard target (resolveSource m) ((rawTransforms.getD []).filterMap normalizeTransform))
  else
    none

/-- `normalize_standard_mappings(mappings)` of `views.py`. -/
def normalize_standard_mappings (mappings : List MappingPayload) : List ColumnMapping :=
  mappings.filterMap normalizeOne

/-- The JSON dict a canonical transform serializes to. -/
def CanonTransform.toPy (t : CanonTransform) : PyTransform :=
  .dict ([("type", t.type)]
    ++ (match t.fromVal with | some v => [("from", v)] | none => [])
    ++ (match t.toVal with | some v => [("to", v)] | none => []))

/-- The payload dict a canonical column mapping serializes to (its
on-disk/DB JSON shape, fed back into `normalize_standard_mappings` for
the round-trip). -/
def ColumnMapping.toPayload : ColumnMapping → MappingPayload
  | .formulaMapping target formula =>
    { emptyPayload with target := some target, formula := some formula }
  | .standard target source transforms =>
    { emptyPayload with
        target := some target,
        source := some source,
        transforms := some (transforms.map CanonTransform.toPy) }

-- ── views.py: transforms and numeric coercion ───────────────────────────────

/-- The dispatch of `apply_transform` on `transform_type`, with
`transform_args` available for the `replace` branch; any unrecognized
type falls through to `return text`. -/
def applyTransformTyped (text : String) (ttype : String) (targs : List (String × String)) : String :=
  if ttype = "trim" then pyStrip text
  else if ttype = "title_case" then pyTitle text
  else if ttype = "upper" then pyUpper text
  else if ttype = "lower" then pyLower text
  else if ttype = "remove_special_chars" then
    String.mk (text.data.filter (fun c =>
      c.isAlpha || c.isDigit || pyIsSpace c || c = '-' || c = '_' || c = '.' || c = '/'))
  else if ttype = "replace" then
    pyReplace text (dictGetD targs "from" "") (dictGetD targs "to" "")
  else text

/-- `apply_transform(value, transform)` of `views.py`.  `value` is
`None` or a string (`'' if value is None else str(value)`).  A truthy
transform that is neither a string nor a dict has no `.get` attribute,
so the source raises `AttributeError` there. -/
def apply_transform (value : Option String) (transform : PyTransform) : Except PyError String :=
  let text := value.getD ""
  if !transform.truthy then .ok text
  else
    match transform with
    | .str s => .ok (applyTransformTyped text s [])
    | .dict d => .ok (applyTransformTyped text (dictGetD d "type" "") d)
    | .noneVal => .ok text
    | .intVal _ =>
      .error (.attributeError "'int' object has no attribute 'get'")

/-- `apply_transforms(value, transforms)` of `views.py`: fold the
chain left to right; an exception from any step propagates. -/
def apply_transforms (value : Option String) : List PyTransform → Except PyError String
  | [] => .ok (value.getD "")
  | t :: rest =>
    match apply_transform value t with
    | .error e => .error e
    | .ok cur => apply_transforms (some cur) rest

/-- `parse_int(value, default)` of `views.py` on a `None`-or-string
value (in `normalize_row` the mapped values are always strings): strip
every character other than digits and `-`, run Python `int()`, and
fall back to the default when that fails or the result is not
strictly positive. -/
def parse_int (value : Option String) (default : Int) : Int :=
  match value with
  | none => default
  | some s =>
    let cleaned := String.mk (s.data.filter (fun c => c.isDigit || c = '-'))
    if cleaned = "" then default
    else
      match pyInt cleaned with
      | some n => if 0 < n then n else default
      | none => default

/-- `Decimal(s)` on a string over the alphabet `[0-9.-]` (the only
characters `parse_decimal`'s cleaning can leave): an optional leading
`-`, digits with at most one `.`, at least one digit; the value is the
exact rational.  `none` models `InvalidOperation`. -/
def pyDecimalOfCleaned (s : String) : Option ℚ :=
  let (sign, body) : Bool × List Char :=
    match s.data with
    | '-' :: rest => (true, rest)
    | cs => (false, cs)
  let intPart := body.takeWhile Char.isDigit
  let afterInt := body.drop intPart.length
  match afterInt with
  | [] =>
    if intPart.isEmpty then none
    else some (if sign then -(pyDigitsVal intPart : ℚ) else (pyDigitsVal intPart : ℚ))
  | '.' :: frac =>
    if frac.all Char.isDigit && !(intPart.isEmpty && frac.isEmpty) then
      let mag : ℚ := (pyDigitsVal intPart : ℚ) + (pyDigitsVal frac : ℚ) / ((10 : ℚ) ^ frac.length)
      some (if sign then -mag else mag)
    else none
  | _ => none

/-- `parse_decimal(value)` of `views.py` on a `None`-or-string value:
strip every character except digits, `.` and `-`, then parse as an
exact decimal; `None` when the cleaned string is empty or `Decimal`
raises `InvalidOperation`. -/
def parse_decimal (value : Option String) : Option ℚ :=
  match value with
  | none => none
  | some s =>
    let cleaned := String.mk (s.data.filter (fun c => c.isDigit || c = '.' || c = '-'))
    if cleaned = "" then none
    else pyDecimalOfCleaned cleaned

-- ── views.py: normalize_row and batch building ──────────────────────────────

/-- The normalized record built by `normalize_row`. -/
structure NormalizedRow where
  row_number : Int
  quantity : Int
  description : String
  title : String
  brand : String
  model : String
  category : String
  condition : String
  retail_value : Option ℚ
  upc : String
  vendor_item_number : String
  notes : String
deriving DecidableEq, Repr

/-- `mappings_by_target.get(target, {})` of `normalize_row`: the dict
comprehension keeps the LAST mapping per target value, so look from
the right. -/
def mappingForTarget (column_mappings : List MappingPayload) (target : String) : MappingPayload :=
  match column_mappings.reverse.find? (fun m => m.target = some target) with
  | some m => m
  | none => emptyPayload

/-- One iteration of the `for target in MANIFEST_TARGET_FIELDS` loop
of `normalize_row`: produce the mapped string for one target.  A
`FormulaError` from `evaluate_formula` is swallowed into `''`; any
other exception propagates. -/
def mappedField (raw : List (String × String)) (column_mappings : List MappingPayload)
    (target : String) : Except PyError String :=
  let mapping := mappingForTarget column_mappings target
  let formula := pyStrip (mapping.formula.getD "")
  if formula ≠ "" then
    match evaluate_formula formula raw with
    | .ok v => .ok v
    | .error (.formulaError _) => .ok ""
    | .error e => .error e
  else
    let source := mapping.source.getD ""
    let rawValue := if source ≠ "" then rowGet raw source else ""
    let transforms : List PyTransform :=
      match mapping.transforms with
      | some ts => ts
      | none =>
        match mapping.transform with
        | some t => if t ≠ "" then [.dict [("type", t)]] else []
        | none => []
    apply_transforms (some rawValue) transforms

/-- `normalize_row(raw, row_number, column_mappings)` of `views.py`:
map every target field in order (the first uncaught exception
aborts), then coerce per field. -/
def normalize_row (raw : List (String × String)) (row_number : Int)
    (column_mappings : List MappingPayload) : Except PyError NormalizedRow := do
  let q ← mappedField raw column_mappings "quantity"
  let desc ← mappedField raw column_mappings "description"
  let title ← mappedField raw column_mappings "title"
  let brand ← mappedField raw column_mappings "brand"
  let model ← mappedField raw column_mappings "model"
  let category ← mappedField raw column_mappings "category"
  let condition ← mappedField raw column_mappings "condition"
  let retail ← mappedField raw column_mappings "retail_value"
  let upc ← mappedField raw column_mappings "upc"
  let vin ← mappedField raw column_mappings "vendor_item_number"
  let notes ← mappedField raw column_mappings "notes"
  .ok {
    row_number := row_number,
    quantity := parse_int (some q) 1,
    description := pyStrip desc,
    title := pyStrip title,
    brand := pyStrip brand,
    model := pyStrip model,
    category := pyStrip category,
    condition := pyStrip condition,
    retail_value := parse_decimal (some retail),
    upc := pyStrip upc,
    vendor_item_number := pyStrip vin,
    notes := pyStrip notes }

/-- A raw-value element of `selected_row_numbers` as it arrives in the
request payload: a JSON number, a string, or `null`. -/
inductive IdVal where
  | int (n : Int)
  | str (s : String)
  | noneVal
deriving DecidableEq, Repr

/-- `parse_id_list(raw_values)` of `views.py`: `int(value)` per
element, skipping elements that raise `TypeError`/`ValueError`. -/
def parse_id_list (raw_values : List IdVal) : List Int :=
  raw_values.filterMap (fun v =>
    match v with
    | .int n => some n
    | .str s => pyInt s
    | .noneVal => none)

/-- A parsed raw manifest row, as produced by `parse_manifest_file`
(1-based `row_number` assigned during file parsing). -/
structure RawRow where
  row_number : Int
  raw : List (String × String)
deriving DecidableEq, Repr

/-- The success payload of `build_normalized_manifest_rows` (the keys
the claims are about). -/
structure BuildResult where
  row_count_in_file : Nat
  rows_selected : Nat
  normalized_rows : List NormalizedRow
deriving DecidableEq, Repr

/-- The return value of `build_normalized_manifest_rows`: an
early-return `{'error': ...}` dict or the result dict. -/
inductive BuildOutcome where
  | errorDict (msg : String)
  | result (r : BuildResult)
deriving DecidableEq, Repr

/-- Python list comprehension over `normalize_row`: sequential, the
first uncaught exception aborts the whole comprehension. -/
def normalizeRows (mappings : List MappingPayload) :
    List RawRow → Except PyError (List NormalizedRow)
  | [] => .ok []
  | r :: rest =>
    match normalize_row r.raw r.row_number mappings with
    | .error e => .error e
    | .ok nr =>
      match normalizeRows mappings rest with
      | .error e => .error e
      | .ok nrs => .ok (nr :: nrs)

/-- `build_normalized_manifest_rows` of `views.py`, with the results of
the I/O-bound steps (`parse_manifest_file` and
`resolve_manifest_mappings`) supplied as inputs: `headers` and
`raw_rows` are the parsed file, `mappings` the resolved mapping set.
`selected_row_numbers = none` models the `None` default. -/
def build_normalized_manifest_rows (headers : List String) (raw_rows : List RawRow)
    (mappings : List MappingPayload) (selected_row_numbers : Option (List IdVal)) :
    Except PyError BuildOutcome :=
  if headers = [] then .ok (.errorDict "No manifest file uploaded for this order.")
  else if raw_rows = [] then .ok (.errorDict "Manifest has no usable rows.")
  else
    let selectedSet := parse_id_list (selected_row_numbers.getD [])
    let filteredRows :=
      if selectedSet ≠ [] then raw_rows.filter (fun r => selectedSet.contains r.row_number)
      else raw_rows
    match normalizeRows mappings filteredRows with
    | .error e => .error e
    | .ok nrs =>
      .ok (.result {
        row_count_in_file := raw_rows.length,
        rows_selected := filteredRows.length,
        normalized_rows := nrs })

-- ── Derived definitions used by the verification ────────────────────────────

def CanonTransform.canonical (t : CanonTransform) : Bool :=
  decide (t.type ≠ "") &&
  (if t.type = "replace" then t.fromVal.isSome && t.toVal.isSome
   else t.fromVal.isNone && t.toVal.isNone)

def ColumnMapping.canonical : ColumnMapping → Bool
  | .formulaMapping target f =>
    MANIFEST_TARGET_FIELDS.contains target && decide (pyStrip f = f) && decide (f ≠ "")
  | .standard target _ ts =>
    MANIFEST_TARGET_FIELDS.contains target && ts.all CanonTransform.canonical

def exceptOk {α : Type} (e : Except PyError α) : Bool :=
  match e with
  | .ok _ => true
  | .error _ => false

def KNOWN_TRANSFORM_TYPES : List String :=
  ["trim", "title_case", "upper", "lower", "remove_special_chars", "replace"]

def noAttrError : PyTransform → Bool
  | .intVal n => decide (n = 0)
  | _ => true

/-- The per-row view of the batch comprehension in
`build_normalized_manifest_rows`: element `i` of the output is
`normalize_row` applied to raw row `i` alone. -/
def normalizeBatchMap (cms : List MappingPayload) (rows : List RawRow) :
    List (Except PyError NormalizedRow) :=
  rows.map (fun r => normalize_row r.raw r.row_number cms)

-- ── Helper lemmas ───────────────────────────────────────────────────────────

theorem dropWhile_self (p : Char → Bool) (l : List Char) :
    (l.dropWhile p).dropWhile p = l.dropWhile p := by
  induction l with
  | nil => rfl
  | cons c t ih =>
    by_cases h : p c
    · simp [List.dropWhile, h, ih]
    · simp [List.dropWhile, h]

theorem dropWhile_length_le (p : Char → Bool) (l : List Char) :
    (l.dropWhile p).length ≤ l.length := by
  induction l with
  | nil => simp
  | cons c t ih =>
    by_cases h : p c
    · simp only [List.dropWhile, h]
      exact le_trans ih (by simp)
    · simp [List.dropWhile, h]

theorem dropWhile_of_prefix (p : Char → Bool) (l l' : List Char)
    (hl : l.dropWhile p = l) (hp : l' <+: l) : l'.dropWhile p = l' := by
  cases l' with
  | nil => rfl
  | cons a t =>
    obtain ⟨rest, hrest⟩ := hp
    rw [← hrest] at hl
    simp only [List.cons_append, List.dropWhile] at hl ⊢
    by_cases h : p a
    · rw [h] at hl
      simp at hl
      have := dropWhile_length_le p (t ++ rest)
      rw [hl] at this
      simp at this
    · simp [h]

theorem pyStripList_idem (cs : List Char) : pyStripList (pyStripList cs) = pyStripList cs := by
  unfold pyStripList
  set A := cs.dropWhile pyIsSpace with hA
  set B := ((A.reverse.dropWhile pyIsSpace)).reverse with hB
  have hArev : B.reverse = A.reverse.dropWhile pyIsSpace := by simp [hB]
  have hBpre : B <+: A := by
    have hsuf : A.reverse.dropWhile pyIsSpace <:+ A.reverse := List.dropWhile_suffix _
    rw [← hArev] at hsuf
    have := hsuf.reverse
    simpa using this
  have hAfix : A.dropWhile pyIsSpace = A := dropWhile_self _ _
  have h1 : B.dropWhile pyIsSpace = B := dropWhile_of_prefix _ _ _ hAfix hBpre
  have h2 : B.reverse.dropWhile pyIsSpace = B.reverse := by
    rw [hArev]
    exact dropWhile_self _ _
  rw [h1, h2]
  simp

theorem pyStrip_idem (s : String) : pyStrip (pyStrip s) = pyStrip s := by
  unfold pyStrip
  simp [pyStripList_idem]

theorem normalizeTransform_toPy_of_canonical (t : CanonTransform)
    (h : t.canonical = true) : normalizeTransform t.toPy = some t := by
  obtain ⟨ty, f?, v?⟩ := t
  simp only [CanonTransform.canonical, Bool.and_eq_true, decide_eq_true_eq] at h
  obtain ⟨hty, hrest⟩ := h
  by_cases hrep : ty = "replace"
  · subst hrep
    rw [if_pos rfl] at hrest
    cases f? with
    | none => simp at hrest
    | some f =>
      cases v? with
      | none => simp at hrest
      | some v =>
        simp [CanonTransform.toPy, normalizeTransform, dictGetD, dictGet?, pyOrStr]
  · rw [if_neg hrep] at hrest
    cases f? with
    | some f => simp at hrest
    | none =>
      cases v? with
      | some v => simp at hrest
      | none =>
        simp [CanonTransform.toPy, normalizeTransform, dictGetD, dictGet?, pyOrStr, hty, hrep]

theorem normalizeTransform_toPy_canonical (t t' : CanonTransform)
    (h : normalizeTransform t.toPy = some t') : t'.canonical = true := by
  obtain ⟨ty, f?, v?⟩ := t
  by_cases hty : ty = ""
  · subst hty
    cases f? <;> cases v? <;>
      simp [CanonTransform.toPy, normalizeTransform, dictGetD, dictGet?, pyOrStr] at h
  · by_cases hrep : ty = "replace"
    · subst hrep
      cases f? <;> cases v? <;>
        · simp [CanonTransform.toPy, normalizeTransform, dictGetD, dictGet?, pyOrStr] at h
          rw [← h]
          simp [CanonTransform.canonical]
    · cases f? <;> cases v? <;>
        · simp [CanonTransform.toPy, normalizeTransform, dictGetD, dictGet?, pyOrStr, hty, hrep] at h
          rw [← h]
          simp [CanonTransform.canonical, hty, hrep]

theorem pyOrStr_empty (a : String) : pyOrStr a "" = a := by
  unfold pyOrStr
  split <;> simp_all

theorem filterMap_toPy_of_canonical (ts : List CanonTransform)
    (h : ts.all CanonTransform.canonical = true) :
    (ts.map CanonTransform.toPy).filterMap normalizeTransform = ts := by
  induction ts with
  | nil => rfl
  | cons t rest ih =>
    simp only [List.all_cons, Bool.and_eq_true] at h
    simp [List.filterMap_cons, normalizeTransform_toPy_of_canonical t h.1, ih h.2]

theorem filterMap_toPy_canonical (ts : List CanonTransform) :
    ((ts.map CanonTransform.toPy).filterMap normalizeTransform).all CanonTransform.canonical = true := by
  rw [List.all_eq_true]
  intro t' ht'
  rw [List.mem_filterMap] at ht'
  obtain ⟨a, ha, hfa⟩ := ht'
  rw [List.mem_map] at ha
  obtain ⟨t, _, rfl⟩ := ha
  exact normalizeTransform_toPy_canonical t t' hfa

theorem normalizeOne_toPayload_of_canonical (cm : ColumnMapping)
    (h : cm.canonical = true) : normalizeOne cm.toPayload = some cm := by
  cases cm with
  | formulaMapping target f =>
    simp only [ColumnMapping.canonical, Bool.and_eq_true, decide_eq_true_eq] at h
    obtain ⟨⟨htarget, hstrip⟩, hne⟩ := h
    have hmem : target ∈ MANIFEST_TARGET_FIELDS := by simpa using htarget
    simp [ColumnMapping.toPayload, normalizeOne, resolveTarget, emptyPayload, pyOrStr_empty,
      hmem, hstrip, hne]
  | standard target source ts =>
    simp only [ColumnMapping.canonical, Bool.and_eq_true] at h
    obtain ⟨htarget, hts⟩ := h
    have hmem : target ∈ MANIFEST_TARGET_FIELDS := by simpa using htarget
    have hfm := filterMap_toPy_of_canonical ts hts
    rw [List.filterMap_map] at hfm
    simp [ColumnMapping.toPayload, normalizeOne, resolveTarget, resolveSource, emptyPayload,
      pyOrStr_empty, hmem, hfm]

theorem filterMap_comp_toPy_canonical (ts : List CanonTransform) :
    (List.filterMap (normalizeTransform ∘ CanonTransform.toPy) ts).all CanonTransform.canonical = true := by
  rw [List.all_eq_true]
  intro t' ht'
  rw [List.mem_filterMap] at ht'
  obtain ⟨t, _, hft⟩ := ht'
  exact normalizeTransform_toPy_canonical t t' hft

theorem normalizeOne_toPayload_canonical (cm cm' : ColumnMapping)
    (h : normalizeOne cm.toPayload = some cm') : cm'.canonical = true := by
  cases cm with
  | formulaMapping target f =>
    by_cases htarget : target ∈ MANIFEST_TARGET_FIELDS
    · by_cases hne : f = ""
      · subst hne
        simp [ColumnMapping.toPayload, normalizeOne, resolveTarget, resolveSource, emptyPayload,
          pyOrStr_empty, htarget] at h
        subst h
        simp [ColumnMapping.canonical, htarget]
      · by_cases hstrip : pyStrip f = ""
        · simp [ColumnMapping.toPayload, normalizeOne, resolveTarget, resolveSource, emptyPayload,
            pyOrStr_empty, htarget, hne, hstrip] at h
          subst h
          simp [ColumnMapping.canonical, htarget]
        · simp [ColumnMapping.toPayload, normalizeOne, resolveTarget, resolveSource, emptyPayload,
            pyOrStr_empty, htarget, hne, hstrip] at h
          subst h
          simp [ColumnMapping.canonical, htarget, hstrip, pyStrip_idem]
    · simp [ColumnMapping.toPayload, normalizeOne, resolveTarget, emptyPayload,
        pyOrStr_empty, htarget] at h
  | standard target source ts =>
    by_cases htarget : target ∈ MANIFEST_TARGET_FIELDS
    · simp [ColumnMapping.toPayload, normalizeOne, resolveTarget, resolveSource, emptyPayload,
        pyOrStr_empty, htarget] at h
      subst h
      simp only [ColumnMapping.canonical]
      rw [Bool.and_eq_true]
      exact ⟨by simpa using htarget, filterMap_comp_toPy_canonical ts⟩
    · simp [ColumnMapping.toPayload, normalizeOne, resolveTarget, emptyPayload,
        pyOrStr_empty, htarget] at h

theorem normalize_mappings_passthrough_aux (cms : List ColumnMapping)
    (h : ∀ cm ∈ cms, cm.canonical = true) :
    normalize_standard_mappings (cms.map ColumnMapping.toPayload) = cms := by
  induction cms with
  | nil => rfl
  | cons cm rest ih =>
    simp only [normalize_standard_mappings, List.map_cons, List.filterMap_cons,
      normalizeOne_toPayload_of_canonical cm (h cm (by simp))]
    have := ih (fun x hx => h x (by simp [hx]))
    simp only [normalize_standard_mappings] at this
    rw [this]

theorem normalize_toPayload_all_canonical (cms : List ColumnMapping) :
    ∀ cm' ∈ normalize_standard_mappings (cms.map ColumnMapping.toPayload), cm'.canonical = true := by
  intro cm' h
  unfold normalize_standard_mappings at h
  rw [List.mem_filterMap] at h
  obtain ⟨p, hp, hfp⟩ := h
  rw [List.mem_map] at hp
  obtain ⟨cm, _, rfl⟩ := hp
  exact normalizeOne_toPayload_canonical cm cm' hfp

theorem parse_int_pos (v : Option String) : 0 < parse_int v 1 := by
  cases v with
  | none => simp [parse_int]
  | some s =>
    simp only [parse_int]
    split
    · omega
    · split
      · split <;> omega
      · omega

theorem exceptOk_iff {α : Type} (e : Except PyError α) :
    exceptOk e = true ↔ ∃ v, e = .ok v := by
  cases e <;> simp [exceptOk]

theorem normalize_row_ok_inv (raw : List (String × String)) (n : Int)
    (cms : List MappingPayload) (nr : NormalizedRow)
    (h : normalize_row raw n cms = .ok nr) :
    nr.row_number = n ∧ ∃ q, nr.quantity = parse_int (some q) 1 := by
  simp only [normalize_row, bind, Except.bind] at h
  repeat (split at h; try exact absurd h (by simp))
  simp only [Except.ok.injEq] at h
  rw [← h]
  exact ⟨rfl, _, rfl⟩

theorem apply_transform_falsy (v : Option String) (t : PyTransform)
    (h : t.truthy = false) : apply_transform v t = .ok (v.getD "") := by
  simp [apply_transform, h]

theorem applyTransformTyped_unknown (text ttype : String) (targs : List (String × String))
    (h : ttype ∉ KNOWN_TRANSFORM_TYPES) : applyTransformTyped text ttype targs = text := by
  simp only [KNOWN_TRANSFORM_TYPES, List.mem_cons, List.not_mem_nil, or_false, not_or] at h
  obtain ⟨h1, h2, h3, h4, h5, h6⟩ := h
  simp [applyTransformTyped, h1, h2, h3, h4, h5, h6]

theorem apply_transform_unknown_str (v : Option String) (s : String)
    (h : s ∉ KNOWN_TRANSFORM_TYPES) : apply_transform v (.str s) = .ok (v.getD "") := by
  by_cases hs : s = ""
  · exact apply_transform_falsy v _ (by simp [PyTransform.truthy, hs])
  · simp [apply_transform, PyTransform.truthy, hs, applyTransformTyped_unknown _ _ _ h]

theorem apply_transform_unknown_dict (v : Option String) (d : List (String × String))
    (h : dictGetD d "type" "" ∉ KNOWN_TRANSFORM_TYPES) :
    apply_transform v (.dict d) = .ok (v.getD "") := by
  by_cases hd : d = []
  · exact apply_transform_falsy v _ (by simp [PyTransform.truthy, hd])
  · simp [apply_transform, PyTransform.truthy, hd, applyTransformTyped_unknown _ _ _ h]

theorem apply_transforms_coerce (v : Option String) (ts : List PyTransform) :
    apply_transforms (some (v.getD "")) ts = apply_transforms v ts := by
  cases ts with
  | nil => simp [apply_transforms]
  | cons t rest =>
    simp only [apply_transforms]
    have harg : apply_transform (some (v.getD "")) t = apply_transform v t := by
      simp [apply_transform]
    rw [harg]

theorem apply_transforms_skip_unknown (v : Option String) (ts1 ts2 : List PyTransform)
    (s : String) (h : s ∉ KNOWN_TRANSFORM_TYPES) :
    apply_transforms v (ts1 ++ .str s :: ts2) = apply_transforms v (ts1 ++ ts2) := by
  induction ts1 generalizing v with
  | nil =>
    simp only [List.nil_append, apply_transforms]
    rw [apply_transform_unknown_str v s h]
    exact apply_transforms_coerce v ts2
  | cons t rest ih =>
    simp only [List.cons_append, apply_transforms]
    cases apply_transform v t with
    | error e => rfl
    | ok cur => exact ih (some cur)

theorem apply_transform_total (v : Option String) (t : PyTransform)
    (h : noAttrError t = true) : ∃ r, apply_transform v t = .ok r := by
  cases t with
  | str s =>
    unfold apply_transform
    split
    · exact ⟨_, rfl⟩
    · exact ⟨_, rfl⟩
  | dict d =>
    unfold apply_transform
    split
    · exact ⟨_, rfl⟩
    · exact ⟨_, rfl⟩
  | noneVal => exact ⟨_, rfl⟩
  | intVal n =>
    simp only [noAttrError, decide_eq_true_eq] at h
    subst h
    exact ⟨_, rfl⟩

theorem apply_transforms_total (v : Option String) (ts : List PyTransform)
    (h : ∀ t ∈ ts, noAttrError t = true) : ∃ r, apply_transforms v ts = .ok r := by
  induction ts generalizing v with
  | nil => exact ⟨_, rfl⟩
  | cons t rest ih =>
    obtain ⟨r, hr⟩ := apply_transform_total v t (h t (by simp))
    simp only [apply_transforms, hr]
    exact ih (some r) (fun x hx => h x (by simp [hx]))

theorem findAliasSource_eq (aliases : List String) (hs : List (String × String)) :
    findAliasSource aliases hs =
      (((aliases.findSome? (fun a => hs.find? (fun p => p.2 = a))).map Prod.fst).getD "") := by
  induction aliases with
  | nil => rfl
  | cons a rest ih =>
    simp only [findAliasSource, List.findSome?_cons]
    cases hfind : hs.find? (fun p => p.2 = a) with
    | none => simpa [hfind] using ih
    | some p => simp [hfind]

theorem normalizeRows_ok_map (cms : List MappingPayload) (rows : List RawRow)
    (nrs : List NormalizedRow) (h : normalizeRows cms rows = .ok nrs) :
    nrs.map (fun nr => nr.row_number) = rows.map (fun r => r.row_number) ∧
    nrs.length = rows.length := by
  induction rows generalizing nrs with
  | nil =>
    simp only [normalizeRows, Except.ok.injEq] at h
    subst h
    simp
  | cons r rest ih =>
    simp only [normalizeRows] at h
    cases hr : normalize_row r.raw r.row_number cms with
    | error e => rw [hr] at h; exact absurd h (by simp)
    | ok nr =>
      rw [hr] at h
      cases hrest : normalizeRows cms rest with
      | error e => rw [hrest] at h; exact absurd h (by simp)
      | ok nrs' =>
        rw [hrest] at h
        simp only [Except.ok.injEq] at h
        subst h
        obtain ⟨hmap, hlen⟩ := ih nrs' hrest
        have hn := (normalize_row_ok_inv r.raw r.row_number cms nr hr).1
        simp [hmap, hlen, hn]

theorem normalizeRows_total (cms : List MappingPayload) (rows : List RawRow)
    (h : ∀ r ∈ rows, exceptOk (normalize_row r.raw r.row_number cms) = true) :
    ∃ nrs, normalizeRows cms rows = .ok nrs ∧ nrs.length = rows.length := by
  induction rows with
  | nil => exact ⟨[], rfl, rfl⟩
  | cons r rest ih =>
    obtain ⟨nr, hnr⟩ := (exceptOk_iff _).mp (h r (by simp))
    obtain ⟨nrs, hnrs, hlen⟩ := ih (fun x hx => h x (by simp [hx]))
    refine ⟨nr :: nrs, ?_, by simp [hlen]⟩
    simp [normalizeRows, hnr, hnrs]

theorem normalize_row_total (raw : List (String × String)) (n : Int)
    (cms : List MappingPayload)
    (h : ∀ t ∈ MANIFEST_TARGET_FIELDS, exceptOk (mappedField raw cms t) = true) :
    ∃ nr, normalize_row raw n cms = .ok nr := by
  obtain ⟨q1, e1⟩ := (exceptOk_iff _).mp (h "quantity" (by simp [MANIFEST_TARGET_FIELDS]))
  obtain ⟨q2, e2⟩ := (exceptOk_iff _).mp (h "description" (by simp [MANIFEST_TARGET_FIELDS]))
  obtain ⟨q3, e3⟩ := (exceptOk_iff _).mp (h "title" (by simp [MANIFEST_TARGET_FIELDS]))
  obtain ⟨q4, e4⟩ := (exceptOk_iff _).mp (h "brand" (by simp [MANIFEST_TARGET_FIELDS]))
  obtain ⟨q5, e5⟩ := (exceptOk_iff _).mp (h "model" (by simp [MANIFEST_TARGET_FIELDS]))
  obtain ⟨q6, e6⟩ := (exceptOk_iff _).mp (h "category" (by simp [MANIFEST_TARGET_FIELDS]))
  obtain ⟨q7, e7⟩ := (exceptOk_iff _).mp (h "condition" (by simp [MANIFEST_TARGET_FIELDS]))
  obtain ⟨q8, e8⟩ := (exceptOk_iff _).mp (h "retail_value" (by simp [MANIFEST_TARGET_FIELDS]))
  obtain ⟨q9, e9⟩ := (exceptOk_iff _).mp (h "upc" (by simp [MANIFEST_TARGET_FIELDS]))
  obtain ⟨q10, e10⟩ := (exceptOk_iff _).mp (h "vendor_item_number" (by simp [MANIFEST_TARGET_FIELDS]))
  obtain ⟨q11, e11⟩ := (exceptOk_iff _).mp (h "notes" (by simp [MANIFEST_TARGET_FIELDS]))
  simp only [normalize_row, bind, Except.bind, e1, e2, e3, e4, e5, e6, e7, e8, e9, e10, e11]
  exact ⟨_, rfl⟩

theorem mappedField_formula_error (raw : List (String × String))
    (cms : List MappingPayload) (target : String) (msg : String)
    (hf : pyStrip ((mappingForTarget cms target).formula.getD "") ≠ "")
    (he : evaluate_formula (pyStrip ((mappingForTarget cms target).formula.getD "")) raw
          = .error (.formulaError msg)) :
    mappedField raw cms target = .ok "" := by
  simp [mappedField, hf, he]

theorem build_result_inv (headers : List String) (raw_rows : List RawRow)
    (maps : List MappingPayload) (sel : Option (List IdVal)) (r : BuildResult)
    (h : build_normalized_manifest_rows headers raw_rows maps sel = .ok (.result r)) :
    r.row_count_in_file = raw_rows.length ∧
    r.rows_selected =
      (if parse_id_list (sel.getD []) ≠ [] then
        raw_rows.filter (fun row => (parse_id_list (sel.getD [])).contains row.row_number)
      else raw_rows).length ∧
    normalizeRows maps
      (if parse_id_list (sel.getD []) ≠ [] then
        raw_rows.filter (fun row => (parse_id_list (sel.getD [])).contains row.row_number)
      else raw_rows) = .ok r.normalized_rows := by
  simp only [build_normalized_manifest_rows] at h
  split at h
  · exact absurd h (by simp)
  split at h
  · exact absurd h (by simp)
  split at h
  · exact absurd h (by simp)
  next nrs heq =>
    simp only [Except.ok.injEq, BuildOutcome.result.injEq] at h
    rw [← h]
    exact ⟨rfl, rfl, heq⟩

theorem parse_decimal_none_iff (s : String) :
    parse_decimal (some s) = none ↔
      (String.mk (s.data.filter (fun c => c.isDigit || c = '.' || c = '-')) = "" ∨
       pyDecimalOfCleaned (String.mk (s.data.filter (fun c => c.isDigit || c = '.' || c = '-'))) = none) := by
  simp only [parse_decimal]
  split
  · simp [*]
  · simp [*]

theorem parse_int_eq (s : String) :
    parse_int (some s) 1 =
      match pyInt (String.mk (s.data.filter (fun c => c.isDigit || c = '-'))) with
      | some n => if 0 < n then n else 1
      | none => 1 := by
  simp only [parse_int]
  split
  · next hcl =>
    rw [hcl]
    rfl
  · rfl

theorem normalizeRows_eq_batchMap (cms : List MappingPayload) (rows : List RawRow)
    (nrs : List NormalizedRow) (h : normalizeRows cms rows = .ok nrs) :
    normalizeBatchMap cms rows = nrs.map Except.ok := by
  induction rows generalizing nrs with
  | nil =>
    simp only [normalizeRows, Except.ok.injEq] at h
    subst h
    rfl
  | cons r rest ih =>
    simp only [normalizeRows] at h
    cases hr : normalize_row r.raw r.row_number cms with
    | error e => rw [hr] at h; exact absurd h (by simp)
    | ok nr =>
      rw [hr] at h
      cases hrest : normalizeRows cms rest with
      | error e => rw [hrest] at h; exact absurd h (by simp)
      | ok nrs' =>
        rw [hrest] at h
        simp only [Except.ok.injEq] at h
        subst h
        have ihh := ih nrs' hrest
        simp only [normalizeBatchMap, List.map_cons] at ihh ⊢
        rw [hr, ihh]

-- ── Claim theorems ──────────────────────────────────────────────────────────

/-- Claim C1 (code-bug evidence): on the syntactically valid formula
`LEFT([SKU], [N])` with `N` absent from the row, the second argument
evaluates to `''` and the source calls Python `int('')`, which raises
`ValueError` — not `FormulaError` — so `evaluate_formula` does raise an
exception other than `FormulaError` on a syntax-and-arity-correct
formula, contrary to the claim and to the function's own docstring. -/
theorem left_nonnumeric_count_raises_valueerror :
    evaluate_formula "LEFT([SKU], [N])" [("SKU", "ABC")]
      = .error (.valueError "invalid literal for int() with base 10: ''") := by
  rfl

/-- Claim C2 counterexample: a single field whose formula raises a
non-`FormulaError` exception (`ValueError` from `LEFT` with a
non-numeric count) is NOT swallowed: `normalize_row` aborts instead of
returning a normalized row with that field empty. -/
theorem normalize_row_valueerror_aborts :
    normalize_row [] 1 [{ emptyPayload with target := some "notes", formula := some "LEFT([A], [B])" }]
      = .error (.valueError "invalid literal for int() with base 10: ''") := by
  rfl

/-- Claim C2 (amended): per-field normalization swallows exactly
`FormulaError` (a field whose formula fails with `FormulaError` maps to
`''`); a row whose fields all evaluate without uncaught exception
yields a normalized row, and a batch all of whose rows normalize
yields exactly one normalized row per raw row.  Failures other than
`FormulaError` propagate (see the counterexample). -/
theorem normalize_row_swallows_formula_errors :
    (∀ raw cms target msg,
        pyStrip ((mappingForTarget cms target).formula.getD "") ≠ "" →
        evaluate_formula (pyStrip ((mappingForTarget cms target).formula.getD "")) raw
          = .error (.formulaError msg) →
        mappedField raw cms target = .ok "")
  ∧ (∀ raw n cms, (∀ t ∈ MANIFEST_TARGET_FIELDS, exceptOk (mappedField raw cms t) = true) →
        ∃ nr, normalize_row raw n cms = .ok nr)
  ∧ (∀ cms rows, (∀ r ∈ rows, exceptOk (normalize_row r.raw r.row_number cms) = true) →
        ∃ nrs, normalizeRows cms rows = .ok nrs ∧ nrs.length = rows.length) := by
  exact ⟨mappedField_formula_error, normalize_row_total, normalizeRows_total⟩

/-- Witness for C2's amended theorem: a mapping whose formula is a
`FormulaError` (`REPLACE` with two arguments) still yields a
normalized row. -/
theorem normalize_row_swallows_formula_errors_witness :
    ∃ nr, normalize_row [] 1 [{ emptyPayload with target := some "notes", formula := some "REPLACE([A], \"x\")" }] = .ok nr :=
  normalize_row_swallows_formula_errors.2.1 [] 1
    [{ emptyPayload with target := some "notes", formula := some "REPLACE([A], \"x\")" }]
    (by decide)

/-- Claim C3 counterexample: with headers `["Qty", "Desc", "Cost"]` the
description target binds to the EMPTY source (the alias table has no
`desc` alias), not to `"Desc"`; and with headers `["Units", "Qty"]` the
quantity target binds to `"Qty"` (the earliest alias with a match),
not to the first header whose lowered form appears in the alias list,
which is `"Units"`. -/
theorem default_mappings_counterexample :
    (default_column_mappings ["Qty", "Desc", "Cost"])[1]?
        = some (ColumnMapping.standard "description" "" [])
  ∧ ("" : String) ≠ "Desc"
  ∧ (default_column_mappings ["Units", "Qty"])[0]?
        = some (ColumnMapping.standard "quantity" "Qty" [])
  ∧ (["Units", "Qty"].find? (fun h =>
        (MANIFEST_SOURCE_ALIASES "quantity").contains (pyLower (pyStrip h)))) = some "Units"
  ∧ ("Qty" : String) ≠ "Units" := by
  refine ⟨by decide, by decide, by decide, by decide, by decide⟩

/-- Claim C3 (amended): auto-mapping searches each target's alias list
in order and binds the first header matching the earliest alias (after
trim and lowercase); a target with no alias match binds the empty
source.  For headers `["Qty", "Desc", "Cost"]`: quantity binds `"Qty"`
and retail_value binds `"Cost"`, while description (no `desc` alias)
and every other target bind the empty source. -/
theorem default_mappings_alias_order :
    (∀ headers, default_column_mappings headers =
       MANIFEST_TARGET_FIELDS.map (fun target =>
         ColumnMapping.standard target
           ((((MANIFEST_SOURCE_ALIASES target).findSome? (fun a =>
               (headers.map (fun h => (h, pyLower (pyStrip h)))).find?
                 (fun p => p.2 = a))).map Prod.fst).getD "") []))
  ∧ default_column_mappings ["Qty", "Desc", "Cost"] =
      [.standard "quantity" "Qty" [], .standard "description" "" [], .standard "title" "" [],
       .standard "brand" "" [], .standard "model" "" [], .standard "category" "" [],
       .standard "condition" "" [], .standard "retail_value" "Cost" [], .standard "upc" "" [],
       .standard "vendor_item_number" "" [], .standard "notes" "" []] := by
  constructor
  · intro headers
    simp [default_column_mappings, findAliasSource_eq]
  · decide

/-- Claim C4 counterexample: `validate_formula` only tokenizes and
parses — it never checks arity — so for `REPLACE` with two arguments it
returns `none` (valid), where the claim requires a non-`None` error. -/
theorem validate_formula_ignores_arity :
    validate_formula "REPLACE([A], \"x\")" = none := by
  rfl

/-- Claim C4 (amended): a `REPLACE` call with exactly two arguments
raises `FormulaError` citing that at least 3 arguments are required
when evaluated (for every row, since the arity check precedes argument
evaluation), but `validate_formula` returns `None` for the same
formula because arity is checked only during evaluation. -/
theorem replace_arity_checked_only_at_evaluation :
    (∀ row, evaluate_formula "REPLACE([A], \"x\")" row
        = .error (.formulaError "REPLACE() requires at least 3 argument(s), got 2"))
  ∧ validate_formula "REPLACE([A], \"x\")" = none := by
  exact ⟨fun _ => rfl, rfl⟩

/-- Claim C5: the evaluator implements the documented function
semantics: `UPPER` uppercases, `CONCAT`/`TRIM` concatenate and strip,
`LEFT` takes a prefix, and `RIGHT` with count 0 yields the empty
string for every row value. -/
theorem formula_function_semantics :
    evaluate_formula "UPPER([Brand])" [("Brand", "sony")] = .ok "SONY"
  ∧ evaluate_formula "CONCAT(TRIM([Brand]), \" \", [Model])"
      [("Brand", " Sony "), ("Model", "X900")] = .ok "Sony X900"
  ∧ evaluate_formula "LEFT([SKU], 3)" [("SKU", "ABC1234")] = .ok "ABC"
  ∧ (∀ s, evaluate_formula "RIGHT([SKU], 0)" [("SKU", s)] = .ok "") := by
  exact ⟨rfl, rfl, rfl, fun _ => rfl⟩

/-- Claim C6: quantity coercion strips everything but digits and `-`,
parses with Python `int()` and defaults to 1 unless strictly positive
(so the quantity of every successfully normalized row is positive);
retail-value coercion strips everything but digits, `.` and `-` and is
null exactly when the cleaned string is empty or not a valid decimal. -/
theorem numeric_coercion_spec :
    (∀ v, 0 < parse_int v 1)
  ∧ (∀ s, parse_int (some s) 1 =
      match pyInt (String.mk (s.data.filter (fun c => c.isDigit || c = '-'))) with
      | some n => if 0 < n then n else 1
      | none => 1)
  ∧ (∀ s, parse_decimal (some s) = none ↔
      (String.mk (s.data.filter (fun c => c.isDigit || c = '.' || c = '-')) = "" ∨
       pyDecimalOfCleaned
         (String.mk (s.data.filter (fun c => c.isDigit || c = '.' || c = '-'))) = none))
  ∧ (∀ raw n cms nr, normalize_row raw n cms = .ok nr → 0 < nr.quantity) := by
  refine ⟨parse_int_pos, parse_int_eq, parse_decimal_none_iff, ?_⟩
  intro raw n cms nr h
  obtain ⟨-, q, hq⟩ := normalize_row_ok_inv raw n cms nr h
  rw [hq]
  exact parse_int_pos (some q)

/-- Witness for C6: the row normalized from an empty raw row has
quantity 1 > 0. -/
theorem numeric_coercion_spec_witness :
    0 < (⟨1, 1, "", "", "", "", "", "", none, "", "", ""⟩ : NormalizedRow).quantity :=
  numeric_coercion_spec.2.2.2 [] 1 [] ⟨1, 1, "", "", "", "", "", "", none, "", "", ""⟩ rfl

/-- Claim C7: with a non-empty parsed selection, the batch processes
exactly the raw rows whose row_number is selected, in file order, and
reports the file row count and the selected count; with no selection,
all parsed rows are normalized.  The concrete conjunct shows selecting
row 2 of 5 yields exactly the normalized row with row_number 2. -/
theorem row_selection_spec :
    (∀ headers raw_rows maps sel r,
        build_normalized_manifest_rows headers raw_rows maps (some sel) = .ok (.result r) →
        parse_id_list sel ≠ [] →
        r.row_count_in_file = raw_rows.length ∧
        r.rows_selected = (raw_rows.filter
          (fun row => (parse_id_list sel).contains row.row_number)).length ∧
        r.normalized_rows.map (fun nr => nr.row_number)
          = (raw_rows.filter (fun row => (parse_id_list sel).contains row.row_number)).map
              (fun row => row.row_number))
  ∧ (∀ headers raw_rows maps r,
        build_normalized_manifest_rows headers raw_rows maps none = .ok (.result r) →
        r.row_count_in_file = raw_rows.length ∧ r.rows_selected = raw_rows.length ∧
        r.normalized_rows.length = raw_rows.length)
  ∧ build_normalized_manifest_rows ["A"]
      [⟨1, [("A", "a")]⟩, ⟨2, [("A", "b")]⟩, ⟨3, [("A", "c")]⟩, ⟨4, [("A", "d")]⟩,
       ⟨5, [("A", "e")]⟩] [] (some [.int 2])
      = .ok (.result ⟨5, 1, [⟨2, 1, "", "", "", "", "", "", none, "", "", ""⟩]⟩) := by
  refine ⟨?_, ?_, by rfl⟩
  · intro headers raw_rows maps sel r h hne
    have hi := build_result_inv headers raw_rows maps (some sel) r h
    simp only [Option.getD_some, if_pos hne] at hi
    obtain ⟨h1, h2, h3⟩ := hi
    exact ⟨h1, h2, (normalizeRows_ok_map maps _ _ h3).1⟩
  · intro headers raw_rows maps r h
    have hi := build_result_inv headers raw_rows maps none r h
    have hids : parse_id_list ((none : Option (List IdVal)).getD []) = [] := rfl
    rw [hids, if_neg (fun hc => hc rfl)] at hi
    obtain ⟨h1, h2, h3⟩ := hi
    exact ⟨h1, h2, (normalizeRows_ok_map maps _ _ h3).2⟩

/-- Witness for C7: the selection theorem applied to the 5-row batch
with selection `[2]`. -/
theorem row_selection_spec_witness :
    (⟨5, 1, [⟨2, 1, "", "", "", "", "", "", none, "", "", ""⟩]⟩ : BuildResult).row_count_in_file
        = [(⟨1, [("A", "a")]⟩ : RawRow), ⟨2, [("A", "b")]⟩, ⟨3, [("A", "c")]⟩, ⟨4, [("A", "d")]⟩,
           ⟨5, [("A", "e")]⟩].length
  ∧ (⟨5, 1, [⟨2, 1, "", "", "", "", "", "", none, "", "", ""⟩]⟩ : BuildResult).rows_selected
        = ([(⟨1, [("A", "a")]⟩ : RawRow), ⟨2, [("A", "b")]⟩, ⟨3, [("A", "c")]⟩, ⟨4, [("A", "d")]⟩,
            ⟨5, [("A", "e")]⟩].filter
             (fun row => (parse_id_list [.int 2]).contains row.row_number)).length
  ∧ (⟨5, 1, [⟨2, 1, "", "", "", "", "", "", none, "", "", ""⟩]⟩ : BuildResult).normalized_rows.map
        (fun nr => nr.row_number)
      = ([(⟨1, [("A", "a")]⟩ : RawRow), ⟨2, [("A", "b")]⟩, ⟨3, [("A", "c")]⟩, ⟨4, [("A", "d")]⟩,
          ⟨5, [("A", "e")]⟩].filter
           (fun row => (parse_id_list [.int 2]).contains row.row_number)).map
          (fun row => row.row_number) :=
  row_selection_spec.1 ["A"]
    [⟨1, [("A", "a")]⟩, ⟨2, [("A", "b")]⟩, ⟨3, [("A", "c")]⟩, ⟨4, [("A", "d")]⟩, ⟨5, [("A", "e")]⟩]
    [] [.int 2] ⟨5, 1, [⟨2, 1, "", "", "", "", "", "", none, "", "", ""⟩]⟩
    rfl (by decide)

/-- Claim C8: normalization is a pure function — two runs on the same
inputs are equal, and in the per-row batch view element `i` of the
output depends only on raw row `i` (no cross-row state); the batch
comprehension agrees with that per-row view on success. -/
theorem normalization_pure :
    (∀ raw n cms, normalize_row raw n cms = normalize_row raw n cms)
  ∧ (∀ (cms : List MappingPayload) (rows1 rows2 : List RawRow) (i : Nat),
        rows1[i]? = rows2[i]? →
        (normalizeBatchMap cms rows1)[i]? = (normalizeBatchMap cms rows2)[i]?)
  ∧ (∀ cms rows nrs, normalizeRows cms rows = .ok nrs →
        normalizeBatchMap cms rows = nrs.map Except.ok) := by
  refine ⟨fun _ _ _ => rfl, ?_, normalizeRows_eq_batchMap⟩
  intro cms rows1 rows2 i h
  simp [normalizeBatchMap, List.getElem?_map, h]

/-- Witness for C8: two batches sharing raw row 0 produce the same
normalized output at position 0. -/
theorem normalization_pure_witness :
    (normalizeBatchMap [] [(⟨1, []⟩ : RawRow)])[0]?
      = (normalizeBatchMap [] [(⟨1, []⟩ : RawRow), ⟨2, []⟩])[0]? :=
  normalization_pure.2.1 [] [(⟨1, []⟩ : RawRow)] [(⟨1, []⟩ : RawRow), ⟨2, []⟩] 0 (by decide)

/-- Claim C9 counterexample: the legacy string shorthand `'replace'`
normalizes to `{'type': 'replace'}` without `from`/`to`, and a second
normalization pass adds `from: '', to: ''`, so
`normalize_standard_mappings` is not idempotent on its own output. -/
theorem normalize_mappings_not_idempotent :
    normalize_standard_mappings ((normalize_standard_mappings [{ emptyPayload with target := some "notes", source := some "x", transforms := some [.str "replace"] }]).map ColumnMapping.toPayload)
      ≠ normalize_standard_mappings [{ emptyPayload with target := some "notes", source := some "x", transforms := some [.str "replace"] }] := by
  decide

/-- Claim C9 (amended): every mapping already in the canonical shape —
target in the field list, stripped non-empty formula, or transforms
whose types are non-empty with `from`/`to` present exactly for
`replace` — passes through `normalize_standard_mappings` unchanged
(so canonical mapping lists round-trip losslessly), and on arbitrary
payloads the function stabilizes after two applications. -/
theorem normalize_mappings_roundtrip :
    (∀ cms, (∀ cm ∈ cms, cm.canonical = true) →
        normalize_standard_mappings (cms.map ColumnMapping.toPayload) = cms)
  ∧ (∀ ms, normalize_standard_mappings
        ((normalize_standard_mappings
            ((normalize_standard_mappings ms).map ColumnMapping.toPayload)).map
          ColumnMapping.toPayload)
      = normalize_standard_mappings
          ((normalize_standard_mappings ms).map ColumnMapping.toPayload)) := by
  refine ⟨normalize_mappings_passthrough_aux, ?_⟩
  intro ms
  exact normalize_mappings_passthrough_aux _ (normalize_toPayload_all_canonical _)

/-- Witness for C9's amended theorem: a canonical two-mapping list
(a `replace` transform with `from`/`to` and a formula mapping) passes
through unchanged. -/
theorem normalize_mappings_roundtrip_witness :
    normalize_standard_mappings
        ([ColumnMapping.standard "notes" "x" [⟨"replace", some "a", some "b"⟩],
          ColumnMapping.formulaMapping "title" "UPPER([B])"].map ColumnMapping.toPayload)
      = [ColumnMapping.standard "notes" "x" [⟨"replace", some "a", some "b"⟩],
         ColumnMapping.formulaMapping "title" "UPPER([B])"] :=
  normalize_mappings_roundtrip.1
    [ColumnMapping.standard "notes" "x" [⟨"replace", some "a", some "b"⟩],
     ColumnMapping.formulaMapping "title" "UPPER([B])"] (by decide)

/-- Claim C10 counterexample: a truthy transform that is neither a
string nor a dict (e.g. the JSON number 5) has no `.get` attribute, so
`apply_transform` raises `AttributeError` instead of acting as the
identity — applying a transform is not total over malformed
transforms. -/
theorem apply_transform_number_raises :
    apply_transform (some "x") (.intVal 5)
      = .error (.attributeError "'int' object has no attribute 'get'") := by
  rfl

/-- Claim C10 (amended): for every falsy transform, every string
transform with an unrecognized type, and every dict transform with a
missing or unrecognized type, `apply_transform` returns the string
coercion of the value unchanged and does not raise; unknown string
transforms can be removed from a chain without changing its result,
and a chain free of truthy non-string non-dict entries always
succeeds.  A truthy non-string non-dict transform raises
`AttributeError` (see the counterexample). -/
theorem apply_transform_unknown_is_identity :
    (∀ v t, PyTransform.truthy t = false → apply_transform v t = .ok (v.getD ""))
  ∧ (∀ v s, s ∉ KNOWN_TRANSFORM_TYPES → apply_transform v (.str s) = .ok (v.getD ""))
  ∧ (∀ v d, dictGetD d "type" "" ∉ KNOWN_TRANSFORM_TYPES →
        apply_transform v (.dict d) = .ok (v.getD ""))
  ∧ (∀ v ts1 ts2 s, s ∉ KNOWN_TRANSFORM_TYPES →
        apply_transforms v (ts1 ++ .str s :: ts2) = apply_transforms v (ts1 ++ ts2))
  ∧ (∀ v ts, (∀ t ∈ ts, noAttrError t = true) → ∃ r, apply_transforms v ts = .ok r) := by
  exact ⟨apply_transform_falsy, apply_transform_unknown_str, apply_transform_unknown_dict,
    apply_transforms_skip_unknown, apply_transforms_total⟩

/-- Witness for C10's amended theorem: the unrecognized transform type
`sparkle` leaves the value unchanged. -/
theorem apply_transform_unknown_is_identity_witness :
    apply_transform (some "Ab") (.str "sparkle") = .ok "Ab" :=
  apply_transform_unknown_is_identity.2.1 (some "Ab") "sparkle" (by decide)
